import Mathlib

/-!
Verification of the mirror-management and fallback-request core of the
universal-manga-downloader repository.

The Python source under src/services is shallowly embedded below:
pure helpers become Lean functions, the mutable manager object
(BatoMirrorManager) becomes explicit state passing over MirrorState,
fallible code returns Option or Except, and the network layer is a
parameter (an oracle function from URL to an Except outcome).

String processing is implemented over character lists (String.data) so
that every definition is executable and kernel-reducible; the helpers
mirror the exact slice of Python string and urllib behavior the source
exercises (ASCII inputs without percent-escapes, which is all the
modelled code paths depend on).
-/

/-- Python default whitespace characters recognized by str.strip. -/
def isPySpace (c : Char) : Bool :=
  c = ' ' || c = '\t' || c = '\n' || c = '\r' || c = '\x0b' || c = '\x0c'

/-- Embedding of Python str.strip with default whitespace. -/
def strTrim (s : String) : String :=
  ⟨((s.data.dropWhile isPySpace).reverse.dropWhile isPySpace).reverse⟩

/-- Embedding of Python str.startswith for a single candidate. -/
def strStartsWith (s p : String) : Bool :=
  p.data.isPrefixOf s.data

/-- ASCII lower-casing of one character (the modelled keys are ASCII). -/
def lowerChar (c : Char) : Char :=
  if 65 ≤ c.toNat ∧ c.toNat ≤ 90 then Char.ofNat (c.toNat + 32) else c

/-- Embedding of Python str.lower on the ASCII subset the source compares. -/
def lowerStr (s : String) : String :=
  ⟨s.data.map lowerChar⟩

/-- Embedding of Python str.rstrip with argument "/": drop all trailing slashes. -/
def rstripSlash (s : String) : String :=
  ⟨(s.data.reverse.dropWhile (fun c => c = '/')).reverse⟩

/-- Split a character list at every occurrence of a separator character,
mirroring Python str.split(sep). -/
def splitOnCharAux (c : Char) : List Char → List Char → List (List Char)
  | [], acc => [acc.reverse]
  | x :: xs, acc =>
    if x = c then acc.reverse :: splitOnCharAux c xs []
    else splitOnCharAux c xs (x :: acc)

/-- Split at every separator occurrence (Python str.split(sep)). -/
def splitOnChar (c : Char) (l : List Char) : List (List Char) :=
  splitOnCharAux c l []

/-- Split at the first occurrence of a character, mirroring
Python str.split(sep, 1); none when the character is absent. -/
def splitFirstAt (c : Char) : List Char → Option (List Char × List Char)
  | [] => none
  | x :: xs =>
    if x = c then some ([], xs)
    else (splitFirstAt c xs).map fun p => (x :: p.1, p.2)

/-- Take the longest first segment free of the stop characters, returning it
together with the rest (used to model urllib.parse.urlparse splitting). -/
def spanUntil (stops : List Char) (l : List Char) : List Char × List Char :=
  (l.takeWhile (fun c => !(stops.contains c)), l.dropWhile (fun c => !(stops.contains c)))

/-- Embedding of urllib.parse.parse_qsl on escape-free input: split the query
on ampersands, drop empty pairs, drop pairs without an equals sign, and drop
pairs with an empty value (keep_blank_values is False in the source). -/
def qsPairs (q : List Char) : List (String × String) :=
  (splitOnChar '&' q).filterMap fun pair =>
    if pair = [] then none
    else match splitFirstAt '=' pair with
      | none => none
      | some kv => if kv.2 = [] then none else some (⟨kv.1⟩, ⟨kv.2⟩)

/-- Append one key-value pair to a grouped association list, keeping the
first-occurrence ordering of keys, as the Python dict built by parse_qs does. -/
def addPair : List (String × List String) → String × String → List (String × List String)
  | [], kv => [(kv.1, [kv.2])]
  | e :: rest, kv =>
    if e.1 = kv.1 then (e.1, e.2 ++ [kv.2]) :: rest
    else e :: addPair rest kv

/-- Embedding of urllib.parse.parse_qs: group the pair list by key, values in
occurrence order, keys in first-occurrence order. -/
def groupPairs (ps : List (String × String)) : List (String × List String) :=
  ps.foldl addPair []

/-- The fixed exclusion set of user-specific query keys from parse_search_url. -/
def excludedParams : List String :=
  ["word", "page", "q", "query", "search", "keyword"]

/-- Configuration record for a single mirror site (MirrorConfig TypedDict);
search_params is the insertion-ordered string dictionary of extra parameters. -/
structure MirrorConfig where
  base_url : String
  search_path : String
  search_params : List (String × String)
deriving DecidableEq, Repr

/-- The built-in default mirror list DEFAULT_MIRRORS of the source. -/
def DEFAULT_MIRRORS : List MirrorConfig :=
  [ ⟨"https://bato.to", "/v4x-search", [("type", "comic")]⟩,
    ⟨"https://bato.si", "/v4x-search", [("type", "comic")]⟩,
    ⟨"https://bato.ing", "/v4x-search", [("type", "comic")]⟩ ]

/-- Embedding of parse_search_url from bato_mirror_manager: strip the input,
reject empty input, prepend the https scheme when no scheme is present, parse
into scheme, netloc, path and query, reject a missing netloc, and keep only
query parameters whose lower-cased key is outside the exclusion set, taking
the first occurrence value of each key. -/
def parse_search_url (url : String) : Option MirrorConfig :=
  let url := strTrim url
  if url = "" then none
  else
    let url :=
      if strStartsWith url "http://" || strStartsWith url "https://" then url
      else "https://" ++ url
    let sr : String × List Char :=
      if strStartsWith url "https://" then ("https", url.data.drop 8)
      else ("http", url.data.drop 7)
    let nr := spanUntil ['/', '?', '#'] sr.2
    if nr.1 = [] then none
    else
      let pr := spanUntil ['?', '#'] nr.2
      let queryCs : List Char :=
        match pr.2 with
        | '?' :: t => t.takeWhile (fun c => !(c = '#'))
        | _ => []
      let base_url := sr.1 ++ "://" ++ (⟨nr.1⟩ : String)
      let search_path : String := if pr.1 = [] then "/" else ⟨pr.1⟩
      let search_params := (groupPairs (qsPairs queryCs)).filterMap fun kv =>
        if lowerStr kv.1 ∈ excludedParams then none
        else match kv.2 with
          | [] => none
          | v :: _ => some (kv.1, v)
      some ⟨base_url, search_path, search_params⟩

/-- In-memory state of a BatoMirrorManager instance: the ordered mirror list
and the current index. The index is modelled as an integer because the
persisted file may carry any integer and the loader does not clamp from
below; Python integer arithmetic on it is mirrored with Int, whose emod
agrees with the Python modulo operator. -/
structure MirrorState where
  mirrors : List MirrorConfig
  current_index : Int
deriving DecidableEq, Repr

/-- Python list indexing on a mirror list: a non-negative index selects from
the front, a negative index counts from the back. The default record is never
produced on the in-range inputs the theorems exercise. -/
def pyGet (l : List MirrorConfig) (i : Int) : MirrorConfig :=
  if 0 ≤ i then l.getD i.toNat ⟨"", "", []⟩
  else l.getD ((l.length : Int) + i).toNat ⟨"", "", []⟩

/-- Embedding of the current_mirror property: the record at current_index, or
the first built-in default when the store is empty. -/
def MirrorState.current_mirror (st : MirrorState) : MirrorConfig :=
  if st.mirrors = [] then DEFAULT_MIRRORS.headD ⟨"", "", []⟩
  else pyGet st.mirrors st.current_index

/-- Embedding of the current_base_url property. -/
def MirrorState.current_base_url (st : MirrorState) : String :=
  st.current_mirror.base_url

/-- Embedding of BatoMirrorManager.next_mirror: with fewer than two mirrors
there is no next mirror; otherwise the successor index is computed modulo the
list length, and a wrap back to index zero terminates the cycle without
changing the state; otherwise the index advances and the new current record
is returned together with the updated state. -/
def next_mirror (st : MirrorState) : Option MirrorConfig × MirrorState :=
  if (st.mirrors.length : Int) ≤ 1 then (none, st)
  else
    let next := (st.current_index + 1) % (st.mirrors.length : Int)
    if next = 0 then (none, st)
    else
      let st' : MirrorState := ⟨st.mirrors, next⟩
      (some st'.current_mirror, st')

/-- Embedding of BatoMirrorManager.reset_to_primary: the index becomes zero
(the source skips the write when it is already zero; the resulting state is
the same either way). -/
def reset_to_primary (st : MirrorState) : MirrorState :=
  ⟨st.mirrors, 0⟩

/-- Mirrors visited by calling next_mirror repeatedly until it reports no
next mirror, in visit order; fuel bounds the iteration count and any fuel of
at least the mirror-list length is enough for the run to terminate on its
own. -/
def advanceSeq : MirrorState → Nat → List MirrorConfig
  | _, 0 => []
  | st, fuel + 1 =>
    match next_mirror st with
    | (none, _) => []
    | (some cfg, st') => cfg :: advanceSeq st' fuel

/-- Update the first record whose base_url matches the parsed configuration,
replacing its search_path and search_params in place, as the for-loop of
add_mirror_from_url does. -/
def updateFirstMirror (cfg : MirrorConfig) : List MirrorConfig → List MirrorConfig
  | [] => []
  | e :: rest =>
    if e.base_url = cfg.base_url then ⟨e.base_url, cfg.search_path, cfg.search_params⟩ :: rest
    else e :: updateFirstMirror cfg rest

/-- Embedding of BatoMirrorManager.add_mirror_from_url: parse the URL; on
failure report an invalid-format message and leave the state unchanged; when
a record with the same base_url exists, update that record in place;
otherwise append the new record. -/
def add_mirror_from_url (st : MirrorState) (url : String) : (Bool × String) × MirrorState :=
  match parse_search_url url with
  | none =>
    ((false, "Invalid URL format. Please paste a search URL from your browser."), st)
  | some config =>
    if st.mirrors.any (fun e => e.base_url = config.base_url) then
      ((true, "Updated " ++ config.base_url ++ " search path to " ++ config.search_path),
        ⟨updateFirstMirror config st.mirrors, st.current_index⟩)
    else
      ((true, "Added mirror: " ++ config.base_url ++ " (path: " ++ config.search_path ++ ")"),
        ⟨st.mirrors ++ [config], st.current_index⟩)

/-- Embedding of BatoMirrorManager.remove_mirror: an out-of-range index or a
store of at most one record is rejected with the source message and the state
is unchanged; otherwise the record is removed and the current index is
clamped to the new last position when it fell off the end, or decremented
when the removed record preceded it. -/
def remove_mirror (st : MirrorState) (index : Int) : (Bool × String) × MirrorState :=
  if ¬ (0 ≤ index ∧ index < (st.mirrors.length : Int)) then
    ((false, "Invalid mirror index"), st)
  else if st.mirrors.length ≤ 1 then
    ((false, "Cannot remove the last mirror"), st)
  else
    let removed := pyGet st.mirrors index
    let ms := st.mirrors.eraseIdx index.toNat
    let ci :=
      if (ms.length : Int) ≤ st.current_index then (ms.length : Int) - 1
      else if index < st.current_index then st.current_index - 1
      else st.current_index
    ((true, "Removed mirror: " ++ removed.base_url), ⟨ms, ci⟩)

/-- One JSON dictionary entry of the persisted mirrors list, with each field
optional because the loader tolerates missing keys (values are modelled as
already-stringified, matching the str coercion the loader applies). -/
structure RawMirror where
  base_url : Option String
  search_path : Option String
  search_params : Option (List (String × String))
deriving DecidableEq, Repr

/-- One entry of the persisted mirrors list: a dictionary, a legacy bare
origin string, or any other JSON value (which the loader skips). -/
inductive RawEntry where
  | dict (m : RawMirror)
  | str (s : String)
  | other
deriving DecidableEq, Repr

/-- The decoded persisted configuration file: the mirrors value when it is a
list (none models a missing or non-list value), and the current_index value
(the loader defaults it to zero when the key is missing). -/
structure RawConfig where
  mirrors : Option (List RawEntry)
  current_index : Int
deriving DecidableEq, Repr

/-- Conversion of one persisted entry into a mirror record, mirroring the
loop body of _load_config: a dictionary entry needs a base_url key, whose
value has trailing slashes stripped, with defaults for the other fields; a
legacy string entry becomes a record with the default search path and
params; any other entry is skipped. -/
def loadEntry : RawEntry → Option MirrorConfig
  | .dict m =>
    match m.base_url with
    | some b => some ⟨rstripSlash b, m.search_path.getD "/v4x-search",
        m.search_params.getD []⟩
    | none => none
  | .str s => some ⟨rstripSlash s, "/v4x-search", [("type", "comic")]⟩
  | .other => none

/-- The mirror-list part of _load_config: a missing or non-list mirrors
value, an empty list, or a list whose entries are all invalid falls back to
the built-in defaults; otherwise the decoded entries are kept in order. -/
def loadMirrors : Option (List RawEntry) → List MirrorConfig
  | some entries =>
    if entries = [] then DEFAULT_MIRRORS
    else
      if entries.filterMap loadEntry = [] then DEFAULT_MIRRORS
      else entries.filterMap loadEntry
  | none => DEFAULT_MIRRORS

/-- Embedding of _load_config: a missing file or a JSON or OS error (the none
case) installs the defaults with index zero; otherwise the mirrors list is
decoded by loadMirrors and current_index becomes the minimum of the persisted
value and the final list length minus one (so it is clamped from above
only). -/
def loadConfig : Option RawConfig → MirrorState
  | none => ⟨DEFAULT_MIRRORS, 0⟩
  | some raw =>
    ⟨loadMirrors raw.mirrors,
      min raw.current_index
        (if loadMirrors raw.mirrors = [] then 0
          else ((loadMirrors raw.mirrors).length : Int) - 1)⟩

/-- Embedding of _save_config: the in-memory records and index serialized as
the persisted payload (every field present). -/
def saveConfig (st : MirrorState) : RawConfig :=
  ⟨some (st.mirrors.map fun m =>
    .dict ⟨some m.base_url, some m.search_path, some m.search_params⟩),
    st.current_index⟩

/-- Outcome of one fallback-wrapped request: a success carries the payload
and the base URL of the mirror that produced it; a failure carries the last
recorded error, or none when no error was recorded (the defensive generic
all-mirrors-failed branch of the source). -/
inductive FallbackResult (ε α : Type) where
  | success (payload : α) (base : String)
  | failure (lastError : Option ε)
deriving DecidableEq, Repr

/-- Embedding of Python urljoin on the slice the source exercises: the base
is always an origin without a trailing slash and the joined path is either
absolute (starts with a slash), an absolute URL, or a bare relative name. -/
def urljoin (base path : String) : String :=
  if strStartsWith path "http://" || strStartsWith path "https://" then path
  else if strStartsWith path "/" then base ++ path
  else base ++ "/" ++ path

/-- The retry loop shared verbatim by _request_with_fallback,
_search_with_fallback and _get_series_info_graphql: take the current mirror;
stop when its base URL was already tried this call; otherwise record it,
run the work function against the URL joined from the base and the request
path, return its payload and base on success, and on failure record the
error and advance via next_mirror, stopping when no next mirror remains.
After the loop the manager is reset to the primary mirror and the last
recorded error (or the generic failure) is propagated. The state, together
with the accumulated tried list, is threaded explicitly; fuel bounds the
iteration count and is chosen large enough at the entry point. -/
def fallbackLoop (work : String → Except ε α) (path : String) :
    Nat → MirrorState → List String → Option ε →
    FallbackResult ε α × MirrorState × List String
  | 0, st, tried, lastErr => (.failure lastErr, reset_to_primary st, tried)
  | fuel + 1, st, tried, lastErr =>
    if st.current_base_url ∈ tried then (.failure lastErr, reset_to_primary st, tried)
    else
      match work (urljoin st.current_base_url path) with
      | .ok payload =>
        (.success payload st.current_base_url, st, tried ++ [st.current_base_url])
      | .error e =>
        match next_mirror st with
        | (none, _) =>
          (.failure (some e), reset_to_primary st, tried ++ [st.current_base_url])
        | (some _, st') =>
          fallbackLoop work path fuel st' (tried ++ [st.current_base_url]) (some e)

/-- Embedding of BatoService._request_with_fallback (the same loop also
realizes _search_with_fallback, whose body differs only in the work
function): the loop starts from the current state with an empty tried list
and no recorded error. The fuel bound exceeds the number of distinct base
URLs any run can try. -/
def requestWithFallback (work : String → Except ε α) (path : String) (st : MirrorState) :
    FallbackResult ε α × MirrorState × List String :=
  fallbackLoop work path (st.mirrors.length + 2) st [] none

/-- The data object of one chapter node returned by the chapter-list GraphQL
call; optional fields model JSON keys that may be absent. -/
structure ChapterData where
  urlPath : Option String
  dname : Option String
deriving DecidableEq, Repr

/-- One chapter node of the GraphQL chapter list (its data value may be
absent, defaulted to an empty dictionary by the source). -/
structure ChapterNode where
  data : Option ChapterData
deriving DecidableEq, Repr

/-- One normalized chapter record of the returned series information. -/
structure ChapterRef where
  title : String
  url : String
  label : String
deriving DecidableEq, Repr

/-- The chapter-building loop of get_series_info: each chapter node keeps its
upstream position; a node without a urlPath is skipped; title and label both
come from dname with the Unknown default; the URL is joined against the base
URL of the mirror that served the data. No reversal is applied on this path. -/
def buildChapters (base_url : String) (chapters_data : List ChapterNode) : List ChapterRef :=
  chapters_data.filterMap fun ch =>
    let d := ch.data.getD ⟨none, none⟩
    let up := d.urlPath.getD ""
    if up = "" then none
    else some ⟨d.dname.getD "Unknown", urljoin base_url up, d.dname.getD "Unknown"⟩

/-- The summary object of the comic node (its code field may be absent). -/
structure SummaryData where
  code : Option String
deriving DecidableEq, Repr

/-- The data object of the comic GraphQL node; a missing or falsy summary is
modelled as none. -/
structure ComicData where
  name : Option String
  summary : Option SummaryData
  authors : List String
  genres : List String
deriving DecidableEq, Repr

/-- The comic GraphQL node wrapper (its data value may be absent). -/
structure ComicNode where
  data : Option ComicData
deriving DecidableEq, Repr

/-- The normalized series information returned by get_series_info. -/
structure SeriesInfo where
  title : String
  description : String
  attributes : List (String × List String)
  chapters : List ChapterRef
  url : String
deriving DecidableEq, Repr

/-- The normalization tail of get_series_info, applied to the comic node,
chapter list and serving base URL produced by the GraphQL fallback call,
together with the path component of the requested series URL: title defaults
to Unknown Title, the description is the summary code when a summary object
is present, attributes collect the non-empty author and genre lists, and
chapters are built in upstream order. -/
def getSeriesInfo (comic_node : ComicNode) (chapters_data : List ChapterNode)
    (base_url path : String) : SeriesInfo :=
  let data := comic_node.data.getD ⟨none, none, [], []⟩
  let title := data.name.getD "Unknown Title"
  let description :=
    match data.summary with
    | some s => s.code.getD ""
    | none => ""
  let attributes :=
    (if data.authors = [] then [] else [("Authors", data.authors)]) ++
    (if data.genres = [] then [] else [("Genres", data.genres)])
  ⟨title, description, attributes, buildChapters base_url chapters_data,
    urljoin base_url path⟩

/-- One mirror attempt of _get_series_info_graphql: the comic metadata call,
then (only when it succeeded) the chapter-list call, both against the same
API URL. A transport failure or a GraphQL errors payload of either call is
an error of the whole attempt, as in the source where either raises a
RequestException caught by the shared handler. -/
def seriesWork (comicCall : String → Except ε ComicNode)
    (chapCall : String → Except ε (List ChapterNode)) (apiUrl : String) :
    Except ε (ComicNode × List ChapterNode) :=
  match comicCall apiUrl with
  | .error e => .error e
  | .ok cd =>
    match chapCall apiUrl with
    | .error e => .error e
    | .ok chs => .ok (cd, chs)

/-- Embedding of _get_series_info_graphql: the two-call attempt run under
the shared fallback loop against the /apo/ endpoint of each mirror. -/
def getSeriesInfoGraphql (comicCall : String → Except ε ComicNode)
    (chapCall : String → Except ε (List ChapterNode)) (st : MirrorState) :
    FallbackResult ε (ComicNode × List ChapterNode) × MirrorState × List String :=
  requestWithFallback (seriesWork comicCall chapCall) "/apo/" st

/-- One anchor of the rendered chapter list, as _extract_chapters reads it
from the parsed HTML: the href attribute (absent or non-string hrefs are
skipped), the stripped texts of the bold and span children (empty when the
child is absent), and the whole anchor text. -/
structure Anchor where
  href : Option String
  base_title : String
  subtitle : String
  text_content : String
deriving DecidableEq, Repr

/-- Embedding of BatoService._extract_chapters (the HTML-scraping path):
build one record per anchor carrying an href, title from the joined
non-empty bold and span texts falling back to the anchor text, label from
the bold text falling back to the display title, and reverse the list at
the end so the oldest chapter comes first. -/
def extract_chapters (url_base : String) (anchors : List Anchor) : List ChapterRef :=
  (anchors.filterMap fun a =>
    match a.href with
    | none => none
    | some href =>
      let parts := [a.base_title, a.subtitle].filter (fun p => ¬ p = "")
      let full_title := strTrim (String.intercalate " " parts)
      let display_title := if full_title = "" then a.text_content else full_title
      let label := if a.base_title = "" then display_title else a.base_title
      some ⟨display_title, urljoin url_base href, label⟩).reverse

/-- The data object of one search-result item (keys may be absent). -/
structure SearchItemData where
  urlPath : Option String
  name : Option String
  slug : Option String
deriving DecidableEq, Repr

/-- One search-result item (its data value may be absent). -/
structure SearchItem where
  data : Option SearchItemData
deriving DecidableEq, Repr

/-- One normalized search hit returned by search_manga. -/
structure SearchHit where
  title : String
  url : String
  subtitle : String
deriving DecidableEq, Repr

/-- The per-item body of the search_manga result loop: skip items without a
urlPath, resolve the series URL against the serving mirror, deduplicate by
resolved URL keeping the first occurrence, and collect title, URL and
subtitle with the source defaults. -/
def processItems (base : String) : List SearchItem → List String → List SearchHit →
    List String × List SearchHit
  | [], seen, acc => (seen, acc)
  | item :: rest, seen, acc =>
    let d := item.data.getD ⟨none, none, none⟩
    let up := d.urlPath.getD ""
    if up = "" then processItems base rest seen acc
    else
      let series_url := urljoin base up
      if series_url ∈ seen then processItems base rest seen acc
      else processItems base rest (seen ++ [series_url])
        (acc ++ [⟨d.name.getD "Unknown", series_url, d.slug.getD ""⟩])

/-- The page loop of search_manga over the precomputed page numbers; fetch
models _search_with_fallback and returns the item list and the serving base
URL of one page request. The returned log records every page for which a
sub-request was issued, in order; pagination stops early on the first empty
page. Fetch is modelled as total because the claims about this loop count
issued sub-requests, which happen before the outcome is inspected. -/
def searchLoop (fetch : Nat → List SearchItem × String) :
    List Nat → List String → List SearchHit → List Nat →
    List SearchHit × List Nat
  | [], _, acc, reqLog => (acc, reqLog)
  | p :: rest, seen, acc, reqLog =>
    if (fetch p).1 = [] then (acc, reqLog ++ [p])
    else
      searchLoop fetch rest (processItems (fetch p).2 (fetch p).1 seen acc).1
        (processItems (fetch p).2 (fetch p).1 seen acc).2 (reqLog ++ [p])

/-- The 1-indexed inclusive page range of search_manga, whose upper bound is
the maximum of one and the requested page limit. -/
def pageRange (bound : Int) : List Nat :=
  (List.range bound.toNat).map (· + 1)

/-- Embedding of BatoService.search_manga with an explicit page limit: a
blank query returns the empty result with no sub-request; otherwise the
pages from one to max(1, max_pages) are requested in order through the
search loop. The returned pair carries the hits and the log of issued page
sub-requests. -/
def search_manga (fetch : Nat → List SearchItem × String) (query : String)
    (max_pages : Int) : List SearchHit × List Nat :=
  if strTrim query = "" then ([], [])
  else searchLoop fetch (pageRange (max 1 max_pages)) [] [] []

/-- A well-formed mirror origin per the data model: non-empty and without a
trailing slash. -/
def baseUrlOk (s : String) : Prop :=
  s ≠ "" ∧ s.data.getLast? ≠ some '/'

/-- The MirrorStore data invariant of the specification: at least one record,
every base_url a well-formed origin, base_urls pairwise distinct, and the
current index within bounds. -/
def storeInv (st : MirrorState) : Prop :=
  st.mirrors ≠ [] ∧
  (∀ m ∈ st.mirrors, baseUrlOk m.base_url) ∧
  (st.mirrors.map (fun m => m.base_url)).Nodup ∧
  0 ≤ st.current_index ∧ st.current_index < (st.mirrors.length : Int)

instance (s : String) : Decidable (baseUrlOk s) := by
  unfold baseUrlOk; infer_instance

instance (st : MirrorState) : Decidable (storeInv st) := by
  unfold storeInv; infer_instance

/-! ## Helper lemmas -/

theorem next_mirror_mirrors (st : MirrorState) : (next_mirror st).2.mirrors = st.mirrors := by
  unfold next_mirror
  split
  · rfl
  · dsimp only
    split <;> rfl

theorem next_mirror_nat (ms : List MirrorConfig) (i : Nat) (h : i < ms.length) :
    next_mirror ⟨ms, (i : Int)⟩ =
      if ms.length ≤ 1 then (none, ⟨ms, (i : Int)⟩)
      else if i + 1 = ms.length then (none, ⟨ms, (i : Int)⟩)
      else (some (pyGet ms ((i + 1 : Nat) : Int)), ⟨ms, ((i + 1 : Nat) : Int)⟩) := by
  unfold next_mirror
  by_cases h1 : ms.length ≤ 1
  · rw [if_pos (by exact_mod_cast h1), if_pos h1]
  · rw [if_neg (by exact_mod_cast h1), if_neg h1]
    dsimp only
    by_cases h2 : i + 1 = ms.length
    · have hmod : ((i : Int) + 1) % (ms.length : Int) = 0 := by
        have : ((i : Int) + 1) = (ms.length : Int) := by exact_mod_cast h2
        rw [this, Int.emod_self]
      rw [if_pos h2, hmod]
      simp
    · have hlt : (i : Int) + 1 < (ms.length : Int) := by
        have := h
        omega
      have hmod : ((i : Int) + 1) % (ms.length : Int) = (i : Int) + 1 :=
        Int.emod_eq_of_lt (by omega) hlt
      rw [if_neg h2, hmod, if_neg (by omega)]
      have hcast : ((i + 1 : Nat) : Int) = (i : Int) + 1 := by push_cast; ring
      have hne : ms ≠ [] := by intro hh; rw [hh] at h; simp at h
      simp only [MirrorState.current_mirror, hne, if_false, hcast]

theorem pyGet_eq_getElem (ms : List MirrorConfig) (i : Nat) (h : i < ms.length) :
    pyGet ms (i : Int) = ms[i] := by
  unfold pyGet
  rw [if_pos (by omega)]
  simp only [Int.toNat_natCast]
  exact List.getD_eq_getElem ms _ h

theorem advanceSeq_drop (fuel : Nat) :
    ∀ (ms : List MirrorConfig) (i : Nat), i < ms.length → ms.length ≤ fuel + i + 1 →
      advanceSeq ⟨ms, (i : Int)⟩ fuel = ms.drop (i + 1) := by
  induction fuel with
  | zero =>
    intro ms i h hf
    have : ms.length ≤ i + 1 := by omega
    rw [List.drop_eq_nil_of_le this]
    rfl
  | succ fuel ih =>
    intro ms i h hf
    rw [advanceSeq, next_mirror_nat ms i h]
    by_cases h1 : ms.length ≤ 1
    · rw [if_pos h1]
      have : ms.length ≤ i + 1 := by omega
      rw [List.drop_eq_nil_of_le this]
    · rw [if_neg h1]
      by_cases h2 : i + 1 = ms.length
      · rw [if_pos h2]
        rw [List.drop_eq_nil_of_le (by omega)]
      · rw [if_neg h2]
        have hlt : i + 1 < ms.length := by omega
        show pyGet ms ((i + 1 : Nat) : Int) :: advanceSeq ⟨ms, ((i + 1 : Nat) : Int)⟩ fuel =
          List.drop (i + 1) ms
        rw [ih ms (i + 1) hlt (by omega)]
        rw [pyGet_eq_getElem ms (i + 1) hlt]
        exact (List.drop_eq_getElem_cons hlt).symm

theorem fallbackLoop_success_spec {ε α : Type} (work : String → Except ε α) (path : String) :
    ∀ (fuel : Nat) (st : MirrorState) (tried : List String) (lastErr : Option ε)
      (p : α) (b : String) (st' : MirrorState) (tr : List String),
      fallbackLoop work path fuel st tried lastErr = (.success p b, st', tr) →
      st'.current_base_url = b ∧ work (urljoin b path) = .ok p ∧ st'.mirrors = st.mirrors := by
  intro fuel
  induction fuel with
  | zero =>
    intro st tried lastErr p b st' tr h
    exact absurd h (by simp [fallbackLoop])
  | succ fuel ih =>
    intro st tried lastErr p b st' tr h
    rw [fallbackLoop] at h
    by_cases hm : st.current_base_url ∈ tried
    · rw [if_pos hm] at h
      exact absurd h (by simp)
    · rw [if_neg hm] at h
      cases hw : work (urljoin st.current_base_url path) with
      | ok payload =>
        rw [hw] at h
        dsimp only at h
        simp only [Prod.mk.injEq, FallbackResult.success.injEq] at h
        obtain ⟨⟨hp, hb⟩, hst, _⟩ := h
        subst hp hb hst
        exact ⟨rfl, hw, rfl⟩
      | error e =>
        rw [hw] at h
        rcases hn : next_mirror st with ⟨nm, st2⟩
        rw [hn] at h
        cases nm with
        | none =>
          dsimp only at h
          exact absurd h (by simp)
        | some cfg =>
          dsimp only at h
          have hmir : st2.mirrors = st.mirrors := by
            have := next_mirror_mirrors st
            rw [hn] at this
            exact this
          obtain ⟨h1, h2, h3⟩ := ih st2 (tried ++ [st.current_base_url]) (some e) p b st' tr h
          exact ⟨h1, h2, by rw [h3, hmir]⟩

theorem fallbackLoop_failure_spec {ε α : Type} (work : String → Except ε α) (path : String) :
    ∀ (fuel : Nat) (st : MirrorState) (tried : List String) (lastErr : Option ε)
      (e : Option ε) (st' : MirrorState) (tr : List String),
      fallbackLoop work path fuel st tried lastErr = (.failure e, st', tr) →
      st' = ⟨st.mirrors, 0⟩ := by
  intro fuel
  induction fuel with
  | zero =>
    intro st tried lastErr e st' tr h
    rw [fallbackLoop] at h
    simp only [Prod.mk.injEq] at h
    exact h.2.1 ▸ rfl
  | succ fuel ih =>
    intro st tried lastErr e st' tr h
    rw [fallbackLoop] at h
    by_cases hm : st.current_base_url ∈ tried
    · rw [if_pos hm] at h
      simp only [Prod.mk.injEq] at h
      exact h.2.1 ▸ rfl
    · rw [if_neg hm] at h
      cases hw : work (urljoin st.current_base_url path) with
      | ok payload =>
        rw [hw] at h
        dsimp only at h
        exact absurd h (by simp)
      | error e2 =>
        rw [hw] at h
        rcases hn : next_mirror st with ⟨nm, st2⟩
        rw [hn] at h
        cases nm with
        | none =>
          dsimp only at h
          simp only [Prod.mk.injEq] at h
          exact h.2.1 ▸ rfl
        | some cfg =>
          dsimp only at h
          have hmir : st2.mirrors = st.mirrors := by
            have := next_mirror_mirrors st
            rw [hn] at this
            exact this
          rw [ih st2 (tried ++ [st.current_base_url]) (some e2) e st' tr h, hmir]

theorem fallbackLoop_tried_extend {ε α : Type} (work : String → Except ε α) (path : String) :
    ∀ (fuel : Nat) (st : MirrorState) (tried : List String) (lastErr : Option ε),
      ∃ ext, (fallbackLoop work path fuel st tried lastErr).2.2 = tried ++ ext := by
  intro fuel
  induction fuel with
  | zero =>
    intro st tried lastErr
    exact ⟨[], by simp [fallbackLoop]⟩
  | succ fuel ih =>
    intro st tried lastErr
    rw [fallbackLoop]
    by_cases hm : st.current_base_url ∈ tried
    · rw [if_pos hm]
      exact ⟨[], by simp⟩
    · rw [if_neg hm]
      cases hw : work (urljoin st.current_base_url path) with
      | ok payload => exact ⟨[st.current_base_url], rfl⟩
      | error e =>
        rcases hn : next_mirror st with ⟨nm, st2⟩
        cases nm with
        | none => exact ⟨[st.current_base_url], rfl⟩
        | some cfg =>
          obtain ⟨ext, hext⟩ := ih st2 (tried ++ [st.current_base_url]) (some e)
          exact ⟨[st.current_base_url] ++ ext, by rw [hext, List.append_assoc]⟩

theorem fallbackLoop_tried_head {ε α : Type} (work : String → Except ε α) (path : String)
    (fuel : Nat) (st : MirrorState) (lastErr : Option ε) :
    ((fallbackLoop work path (fuel + 1) st [] lastErr).2.2).head? = some st.current_base_url := by
  rw [fallbackLoop]
  rw [if_neg (List.not_mem_nil _)]
  cases hw : work (urljoin st.current_base_url path) with
  | ok payload => rfl
  | error e =>
    rcases hn : next_mirror st with ⟨nm, st2⟩
    cases nm with
    | none => rfl
    | some cfg =>
      dsimp only
      obtain ⟨ext, hext⟩ := fallbackLoop_tried_extend work path fuel st2
        ([] ++ [st.current_base_url]) (some e)
      rw [hext]
      rfl

/-! ## Claim theorems -/

/-- C1, counterexample: with the three default mirrors and starting index 1,
repeated next_mirror calls terminate (more fuel yields the same visit list)
without ever visiting the mirror at index 0, although that mirror is distinct
from the starting one; so advance does not visit every other mirror from
every starting index. -/
theorem C1_counterexample :
    2 ≤ DEFAULT_MIRRORS.length ∧ (1 : Int) < (DEFAULT_MIRRORS.length : Int) ∧
    pyGet DEFAULT_MIRRORS 0 ∉ advanceSeq ⟨DEFAULT_MIRRORS, 1⟩ 3 ∧
    pyGet DEFAULT_MIRRORS 0 ≠ pyGet DEFAULT_MIRRORS 1 ∧
    advanceSeq ⟨DEFAULT_MIRRORS, 1⟩ 3 = advanceSeq ⟨DEFAULT_MIRRORS, 1⟩ 10 := by decide

/-- C1 (amended): from starting index i, repeated next_mirror calls visit
exactly the mirrors at positions i+1 through the end of the list, in order,
each exactly once, and then report no next mirror; the cycle never wraps
around to the positions before the starting index (so it covers every other
mirror only when the start is the primary mirror at index 0), and in
particular never revisits the starting mirror. -/
theorem C1_advance_visits_suffix (ms : List MirrorConfig) (i : Nat) (h : i < ms.length) :
    advanceSeq ⟨ms, (i : Int)⟩ ms.length = ms.drop (i + 1) :=
  advanceSeq_drop ms.length ms i h (by omega)

/-- Witness for C1: at the concrete default store with starting index 0 the
amended theorem applies and yields the two-mirror suffix. -/
theorem C1_witness :
    advanceSeq ⟨DEFAULT_MIRRORS, ((0 : Nat) : Int)⟩ DEFAULT_MIRRORS.length =
      DEFAULT_MIRRORS.drop 1 :=
  C1_advance_visits_suffix DEFAULT_MIRRORS 0 (by decide)

/-- C2, counterexample: with store A, B, C (the defaults), current mirror C
at index 2 and a work function failing on every mirror it is given, the
executor never attempts mirror A: A is absent from the tried list even
though the run ends in failure, contradicting the claimed wraparound
attempt. -/
theorem C2_counterexample :
    "https://bato.to" ∉
      (requestWithFallback (fun u => (Except.error u : Except String Unit)) "/x"
        ⟨DEFAULT_MIRRORS, 2⟩).2.2 ∧
    (requestWithFallback (fun u => (Except.error u : Except String Unit)) "/x"
        ⟨DEFAULT_MIRRORS, 2⟩).1 = .failure (some "https://bato.ing/x") := by decide

/-- C2 (amended): starting from current mirror C at index 2 of the store
A, B, C, a fallback-wrapped request whose work function fails everywhere
attempts only C — advancement stops at the wrap to index 0 instead of trying
A — and after exhaustion the executor resets current_index to 0 and
propagates the last encountered failure, namely the one from C; in general
every exhausted run leaves the state at index 0 with the mirror list
unchanged. -/
theorem C2_no_wraparound_reset_and_propagate :
    requestWithFallback (fun u => (Except.error u : Except String Unit)) "/x"
        ⟨DEFAULT_MIRRORS, 2⟩ =
      (.failure (some "https://bato.ing/x"), ⟨DEFAULT_MIRRORS, 0⟩, ["https://bato.ing"]) ∧
    ∀ (ε α : Type) (work : String → Except ε α) (path : String) (st : MirrorState)
      (e : Option ε) (st' : MirrorState) (tr : List String),
      requestWithFallback work path st = (.failure e, st', tr) → st' = ⟨st.mirrors, 0⟩ := by
  constructor
  · decide
  · intro ε α work path st e st' tr h
    exact fallbackLoop_failure_spec work path _ st [] none e st' tr h

/-- Witness for C2: the general exhaustion clause applied to the concrete
all-failing run starting at index 2. -/
theorem C2_witness :
    (⟨DEFAULT_MIRRORS, 0⟩ : MirrorState) =
      ⟨(⟨DEFAULT_MIRRORS, 2⟩ : MirrorState).mirrors, 0⟩ :=
  C2_no_wraparound_reset_and_propagate.2 String Unit (fun u => .error u) "/x"
    ⟨DEFAULT_MIRRORS, 2⟩ (some "https://bato.ing/x") ⟨DEFAULT_MIRRORS, 0⟩
    ["https://bato.ing"] (by decide)

/-- C3: whenever a fallback-wrapped request returns success with payload p
from mirror base b, the work function succeeded with p at that mirror URL,
the final state still points at b (reset-to-primary was not applied and the
mirror list is unchanged), and any subsequent fallback-wrapped call on the
resulting state attempts b first. -/
theorem C3_success_keeps_mirror {ε α : Type} (work : String → Except ε α) (path : String)
    (st : MirrorState) (p : α) (b : String) (st' : MirrorState) (tr : List String)
    (h : requestWithFallback work path st = (.success p b, st', tr)) :
    st'.current_base_url = b ∧ work (urljoin b path) = .ok p ∧ st'.mirrors = st.mirrors ∧
    ∀ (work2 : String → Except ε α) (path2 : String),
      ((requestWithFallback work2 path2 st').2.2).head? = some b := by
  obtain ⟨h1, h2, h3⟩ := fallbackLoop_success_spec work path _ st [] none p b st' tr h
  refine ⟨h1, h2, h3, ?_⟩
  intro work2 path2
  unfold requestWithFallback
  rw [show st'.mirrors.length + 2 = (st'.mirrors.length + 1) + 1 from rfl]
  rw [fallbackLoop_tried_head work2 path2 (st'.mirrors.length + 1) st' none, h1]

/-- Witness for C3: a fallback recovery where the primary fails and the
second mirror succeeds; the final state points at the second mirror and a
subsequent call attempts it first. -/
theorem C3_witness :
    (⟨DEFAULT_MIRRORS, 1⟩ : MirrorState).current_base_url = "https://bato.si" ∧
    ((requestWithFallback (fun _ => (Except.ok 7 : Except String Nat)) "/y"
        ⟨DEFAULT_MIRRORS, 1⟩).2.2).head? = some "https://bato.si" :=
  ⟨(C3_success_keeps_mirror
      (fun u => if u = "https://bato.to/x" then (Except.error "boom" : Except String Nat)
        else .ok 42)
      "/x" ⟨DEFAULT_MIRRORS, 0⟩ 42 "https://bato.si" ⟨DEFAULT_MIRRORS, 1⟩
      ["https://bato.to", "https://bato.si"] (by decide)).1,
   (C3_success_keeps_mirror
      (fun u => if u = "https://bato.to/x" then (Except.error "boom" : Except String Nat)
        else .ok 42)
      "/x" ⟨DEFAULT_MIRRORS, 0⟩ 42 "https://bato.si" ⟨DEFAULT_MIRRORS, 1⟩
      ["https://bato.to", "https://bato.si"] (by decide)).2.2.2
      (fun _ => .ok 7) "/y"⟩

theorem filterMap_cons_append {α β : Type} (f : α → Option β) (a : α) (l : List α) :
    List.filterMap f (a :: l) = List.filterMap f [a] ++ List.filterMap f l := by
  rw [List.filterMap_cons]
  cases h : f a <;> simp [List.filterMap_cons, h]

/-- C4, counterexample: with an upstream chapter list arriving newest-first
(the data of the regression test shipped with the repository), get_series_info returns
the chapters in the same upstream order, not reversed: the newest chapter is
still first, so the claimed reversal to oldest-first does not happen on this
path. -/
theorem C4_counterexample :
    (getSeriesInfo ⟨none⟩
      [⟨some ⟨some "/chapter/2", some "Ch 2 Title Two"⟩⟩,
       ⟨some ⟨some "/chapter/1", some "Ch 1 Title One"⟩⟩]
      "https://bato.to" "/title/12345-sample-series").chapters =
      [⟨"Ch 2 Title Two", "https://bato.to/chapter/2", "Ch 2 Title Two"⟩,
       ⟨"Ch 1 Title One", "https://bato.to/chapter/1", "Ch 1 Title One"⟩] ∧
    (getSeriesInfo ⟨none⟩
      [⟨some ⟨some "/chapter/2", some "Ch 2 Title Two"⟩⟩,
       ⟨some ⟨some "/chapter/1", some "Ch 1 Title One"⟩⟩]
      "https://bato.to" "/title/12345-sample-series").chapters ≠
      [⟨"Ch 1 Title One", "https://bato.to/chapter/1", "Ch 1 Title One"⟩,
       ⟨"Ch 2 Title Two", "https://bato.to/chapter/2", "Ch 2 Title Two"⟩] := by decide

/-- C4 (amended): get_series_info returns the chapters in upstream order
with no final reversal: its chapter list is exactly the order-preserving
per-node normalization of the upstream list (the head node of the upstream
list normalizes to the front of the result), matching the test shipped with
the repository for this path; the oldest-first reversal exists only in the
HTML-scraping helper extract_chapters, which prepends — rather than
appends — each successive anchor, and which get_series_info does not use. -/
theorem C4_chapters_upstream_order :
    (∀ (node : ComicNode) (base path : String) (cds : List ChapterNode),
      (getSeriesInfo node cds base path).chapters = buildChapters base cds) ∧
    (∀ (base : String) (ch : ChapterNode) (l : List ChapterNode),
      buildChapters base (ch :: l) = buildChapters base [ch] ++ buildChapters base l) ∧
    (∀ (base : String) (a : Anchor) (l : List Anchor),
      extract_chapters base (a :: l) = extract_chapters base l ++ extract_chapters base [a]) := by
  refine ⟨fun node base path cds => rfl, fun base ch l => ?_, fun base a l => ?_⟩
  · show List.filterMap _ (ch :: l) = List.filterMap _ [ch] ++ List.filterMap _ l
    exact filterMap_cons_append _ ch l
  · show (List.filterMap _ (a :: l)).reverse =
      (List.filterMap _ l).reverse ++ (List.filterMap _ [a]).reverse
    rw [filterMap_cons_append, List.reverse_append]

/-- C9: the documented scenario evaluates exactly as claimed (scheme
auto-prepended, word and page removed), exclusion of user-specific keys is
case-insensitive (WORD, Page and QUERY are also removed while the non-excluded
key keeps its original spelling), and a repeated key keeps the value of its
first occurrence. -/
theorem C9_parse_search_url :
    parse_search_url "bato.ing/v4x-search?type=comic&word=test&page=2" =
      some ⟨"https://bato.ing", "/v4x-search", [("type", "comic")]⟩ ∧
    parse_search_url "bato.ing/p?Type=comic&WORD=test&Page=2&QUERY=z" =
      some ⟨"https://bato.ing", "/p", [("Type", "comic")]⟩ ∧
    parse_search_url "bato.ing/p?type=a&type=b&word=x" =
      some ⟨"https://bato.ing", "/p", [("type", "a")]⟩ := by decide

/-- C10: with a non-blank query and a page limit of at most zero,
search_manga still issues exactly one paginated sub-request, for page 1,
because the page bound is the maximum of one and the limit. -/
theorem C10_nonpositive_page_limit (fetch : Nat → List SearchItem × String)
    (query : String) (max_pages : Int) (hq : ¬ strTrim query = "")
    (hmp : max_pages ≤ 0) :
    (search_manga fetch query max_pages).2 = [1] := by
  unfold search_manga
  rw [if_neg hq]
  have hb : max 1 max_pages = 1 := max_eq_left (by omega)
  rw [hb]
  have hp : pageRange 1 = [1] := by decide
  rw [hp, searchLoop]
  by_cases h : (fetch 1).1 = []
  · rw [if_pos h]
    rfl
  · rw [if_neg h, searchLoop]
    rfl

/-- Witness for C10: a concrete non-blank query with page limit zero issues
exactly the page-1 sub-request. -/
theorem C10_witness :
    (search_manga (fun _ => ([], "https://bato.to")) "solo leveling" 0).2 = [1] :=
  C10_nonpositive_page_limit (fun _ => ([], "https://bato.to")) "solo leveling" 0
    (by decide) (by decide)

/-- C6: remove_mirror never leaves the store with fewer than one record: an
out-of-range index or a store of at most one record yields a failure outcome
with the records and the current index completely unchanged; a successful
removal shrinks the list by exactly one record, to at least one record, and
leaves the current index valid for the shrunk list whenever it was valid
before. -/
theorem C6_remove_preserves_store (st : MirrorState) (index : Int) :
    ((¬ (0 ≤ index ∧ index < (st.mirrors.length : Int)) ∨ st.mirrors.length ≤ 1) →
      (remove_mirror st index).1.1 = false ∧ (remove_mirror st index).2 = st) ∧
    (0 ≤ st.current_index → st.current_index < (st.mirrors.length : Int) →
      (remove_mirror st index).1.1 = true →
      (remove_mirror st index).2.mirrors.length = st.mirrors.length - 1 ∧
      1 ≤ (remove_mirror st index).2.mirrors.length ∧
      0 ≤ (remove_mirror st index).2.current_index ∧
      (remove_mirror st index).2.current_index <
        ((remove_mirror st index).2.mirrors.length : Int)) := by
  by_cases h1 : ¬ (0 ≤ index ∧ index < (st.mirrors.length : Int))
  · constructor
    · intro _
      simp only [remove_mirror, if_pos h1]
      exact ⟨trivial, trivial⟩
    · intro _ _ hsucc
      simp only [remove_mirror, if_pos h1] at hsucc
      exact absurd hsucc (by simp)
  · by_cases h2 : st.mirrors.length ≤ 1
    · constructor
      · intro _
        simp only [remove_mirror, if_neg h1, if_pos h2]
        exact ⟨trivial, trivial⟩
      · intro _ _ hsucc
        simp only [remove_mirror, if_neg h1, if_pos h2] at hsucc
        exact absurd hsucc (by simp)
    · constructor
      · intro hbad
        rcases hbad with hbad | hbad
        · exact absurd hbad h1
        · exact absurd hbad h2
      · intro hci0 hcilen _
        push_neg at h1
        have hidx : index.toNat < st.mirrors.length := by omega
        have hlen : (st.mirrors.eraseIdx index.toNat).length = st.mirrors.length - 1 := by
          rw [List.length_eraseIdx]
          rw [if_pos hidx]
        simp only [remove_mirror, if_neg (by push_neg; omega :
          ¬ ¬ (0 ≤ index ∧ index < (st.mirrors.length : Int))), if_neg h2]
        refine ⟨hlen, by omega, ?_, ?_⟩ <;>
          · simp only [hlen]
            split <;> rename_i hs
            · omega
            · split <;> omega

/-- Witness for C6: a concrete rejected removal (out-of-range index) leaves
the default store untouched, and a concrete successful removal of the first
mirror keeps the index of the current mirror valid. -/
theorem C6_witness :
    ((remove_mirror ⟨DEFAULT_MIRRORS, 0⟩ 5).1.1 = false ∧
      (remove_mirror ⟨DEFAULT_MIRRORS, 0⟩ 5).2 = ⟨DEFAULT_MIRRORS, 0⟩) ∧
    ((remove_mirror ⟨DEFAULT_MIRRORS, 2⟩ 0).2.mirrors.length =
        (⟨DEFAULT_MIRRORS, 2⟩ : MirrorState).mirrors.length - 1 ∧
      1 ≤ (remove_mirror ⟨DEFAULT_MIRRORS, 2⟩ 0).2.mirrors.length ∧
      0 ≤ (remove_mirror ⟨DEFAULT_MIRRORS, 2⟩ 0).2.current_index ∧
      (remove_mirror ⟨DEFAULT_MIRRORS, 2⟩ 0).2.current_index <
        ((remove_mirror ⟨DEFAULT_MIRRORS, 2⟩ 0).2.mirrors.length : Int)) :=
  ⟨(C6_remove_preserves_store ⟨DEFAULT_MIRRORS, 0⟩ 5).1 (Or.inl (by decide)),
   (C6_remove_preserves_store ⟨DEFAULT_MIRRORS, 2⟩ 0).2 (by decide) (by decide) (by decide)⟩

/-- C8: a series lookup returns success only when both sequential calls of
one mirror attempt — the metadata call and then the chapter-list call, both
against the same mirror API URL — succeeded, and the final state still
points at that mirror; and when the metadata call succeeds everywhere while
the chapter-list call fails everywhere, the whole attempt counts as a
failure per mirror and advancement walks through every remaining mirror
before the run terminates exhausted (shown on the default three-mirror
store, whose tried list then names all three mirrors in order). -/
theorem C8_series_both_calls_same_mirror :
    (∀ (ε : Type) (comicCall : String → Except ε ComicNode)
      (chapCall : String → Except ε (List ChapterNode)) (st : MirrorState)
      (cd : ComicNode) (chs : List ChapterNode) (b : String) (st' : MirrorState)
      (tr : List String),
      getSeriesInfoGraphql comicCall chapCall st = (.success (cd, chs) b, st', tr) →
      comicCall (urljoin b "/apo/") = .ok cd ∧ chapCall (urljoin b "/apo/") = .ok chs ∧
      st'.current_base_url = b) ∧
    getSeriesInfoGraphql (fun _ => (.ok ⟨none⟩ : Except String ComicNode))
      (fun _ => (.error "chapters failed" : Except String (List ChapterNode)))
      ⟨DEFAULT_MIRRORS, 0⟩ =
      (.failure (some "chapters failed"), ⟨DEFAULT_MIRRORS, 0⟩,
        ["https://bato.to", "https://bato.si", "https://bato.ing"]) := by
  constructor
  · intro ε comicCall chapCall st cd chs b st' tr h
    obtain ⟨h1, h2, _⟩ := fallbackLoop_success_spec (seriesWork comicCall chapCall)
      "/apo/" _ st [] none (cd, chs) b st' tr h
    unfold seriesWork at h2
    cases hc : comicCall (urljoin b "/apo/") with
    | error e =>
      rw [hc] at h2
      exact absurd h2 (by simp)
    | ok cd2 =>
      rw [hc] at h2
      cases hk : chapCall (urljoin b "/apo/") with
      | error e =>
        rw [hk] at h2
        exact absurd h2 (by simp)
      | ok chs2 =>
        rw [hk] at h2
        simp only [Except.ok.injEq, Prod.mk.injEq] at h2
        obtain ⟨hcd, hchs⟩ := h2
        subst hcd hchs
        exact ⟨rfl, rfl, h1⟩
  · decide

/-- Witness for C8: a run where both calls succeed on the primary mirror;
the success clause yields both call outcomes and the preserved current
mirror. -/
theorem C8_witness :
    (fun _ => (.ok ⟨none⟩ : Except String ComicNode))
        (urljoin "https://bato.to" "/apo/") = .ok ⟨none⟩ ∧
    (fun _ => (.ok [] : Except String (List ChapterNode)))
        (urljoin "https://bato.to" "/apo/") = .ok [] ∧
    (⟨DEFAULT_MIRRORS, 0⟩ : MirrorState).current_base_url = "https://bato.to" :=
  C8_series_both_calls_same_mirror.1 String (fun _ => .ok ⟨none⟩) (fun _ => .ok [])
    ⟨DEFAULT_MIRRORS, 0⟩ ⟨none⟩ [] "https://bato.to" ⟨DEFAULT_MIRRORS, 0⟩
    ["https://bato.to"] (by decide)

theorem rstripSlash_eq_self (s : String) (h : s.data.getLast? ≠ some '/') :
    rstripSlash s = s := by
  unfold rstripSlash
  rw [String.ext_iff]
  show (s.data.reverse.dropWhile _).reverse = s.data
  cases hrev : s.data.reverse with
  | nil =>
    rw [List.reverse_eq_nil_iff] at hrev
    simp [hrev]
  | cons c t =>
    have hlast : s.data.getLast? = some c := by
      rw [List.getLast?_eq_head?_reverse, hrev]
      rfl
    have hc : ¬ (c = '/') := fun hcc => h (hcc ▸ hlast)
    rw [List.dropWhile_cons, if_neg (by simp [hc])]
    rw [← hrev, List.reverse_reverse]

theorem filterMap_loadEntry_save (ms : List MirrorConfig)
    (h : ∀ m ∈ ms, m.base_url.data.getLast? ≠ some '/') :
    ((ms.map fun m =>
      RawEntry.dict ⟨some m.base_url, some m.search_path, some m.search_params⟩).filterMap
        loadEntry) = ms := by
  induction ms with
  | nil => rfl
  | cons m rest ih =>
    have hm : loadEntry
        (.dict ⟨some m.base_url, some m.search_path, some m.search_params⟩) = some m := by
      show some (⟨rstripSlash m.base_url, m.search_path, m.search_params⟩ : MirrorConfig) =
        some m
      rw [rstripSlash_eq_self m.base_url (h m (by simp))]
    simp only [List.map_cons, List.filterMap_cons, hm]
    rw [ih (fun x hx => h x (List.mem_cons_of_mem _ hx))]

theorem updateFirstMirror_map (cfg : MirrorConfig) (l : List MirrorConfig) :
    (updateFirstMirror cfg l).map (fun m => m.base_url) = l.map (fun m => m.base_url) := by
  induction l with
  | nil => rfl
  | cons e rest ih =>
    unfold updateFirstMirror
    split
    · rfl
    · simp only [List.map_cons, ih]

theorem baseUrlOk_scheme_netloc (scheme : String) (nl : List Char)
    (hnl : nl ≠ []) (hslash : ∀ c ∈ nl, ¬ (c = '/')) :
    baseUrlOk (scheme ++ "://" ++ (⟨nl⟩ : String)) := by
  constructor
  · rw [Ne, String.ext_iff, String.data_append]
    show ¬ ((scheme ++ "://").data ++ nl = [])
    rw [List.append_eq_nil]
    intro hboth
    exact hnl hboth.2
  · rw [String.data_append]
    show ¬ (((scheme ++ "://").data ++ nl).getLast? = some '/')
    rw [List.getLast?_append_of_ne_nil _ hnl]
    intro hc
    exact hslash '/' (List.mem_of_mem_getLast? hc) rfl

theorem parse_search_url_baseUrlOk (url : String) (cfg : MirrorConfig)
    (h : parse_search_url url = some cfg) : baseUrlOk cfg.base_url := by
  simp only [parse_search_url] at h
  split_ifs at h <;>
    first
    | exact Option.noConfusion h
    | · rw [Option.some.injEq] at h
        rw [← h]
        refine baseUrlOk_scheme_netloc _ _ (by assumption) ?_
        intro c hc hceq
        subst hceq
        simp only [spanUntil] at hc
        have hp := List.mem_takeWhile_imp hc
        exact absurd hp (by decide)

/-- C5, counterexample: load validates far less than the claimed invariant.
A persisted current_index of minus one survives loading unchanged (the load
clamp uses a minimum, so it bounds the index from above only), two entries
with the same base_url are both kept (no deduplication on load), and an
entry whose base_url key holds the empty string is kept as a record with an
empty base_url. -/
theorem C5_counterexample :
    (loadConfig (some ⟨some [.dict ⟨some "https://bato.to", none, none⟩], -1⟩)).current_index
        = -1 ∧
    ¬ (0 ≤ (loadConfig
        (some ⟨some [.dict ⟨some "https://bato.to", none, none⟩], -1⟩)).current_index) ∧
    (loadConfig (some ⟨some [.dict ⟨some "https://x.to", none, none⟩,
        .dict ⟨some "https://x.to", none, none⟩], 0⟩)).mirrors.map (fun m => m.base_url) =
      ["https://x.to", "https://x.to"] ∧
    ¬ ((loadConfig (some ⟨some [.dict ⟨some "https://x.to", none, none⟩,
        .dict ⟨some "https://x.to", none, none⟩], 0⟩)).mirrors.map
          (fun m => m.base_url)).Nodup ∧
    (⟨"", "/v4x-search", []⟩ : MirrorConfig) ∈
      (loadConfig (some ⟨some [.dict ⟨some "", none, none⟩], 0⟩)).mirrors := by decide

/-- C5 (amended): after load the store is never empty and current_index is
clamped from above — it never exceeds the record count minus one — but load
enforces nothing else of the invariant on adversarial files (no lower bound
on the index, no distinctness, no non-empty base_url); the full data
invariant is preserved by the mutation path the claim cites,
add_mirror_from_url, which updates a duplicate origin in place and appends a
parsed, well-formed origin otherwise. -/
theorem C5_load_clamp_and_add_invariant :
    (∀ raw : Option RawConfig, (loadConfig raw).mirrors ≠ [] ∧
      (loadConfig raw).current_index ≤ ((loadConfig raw).mirrors.length : Int) - 1) ∧
    (∀ (st : MirrorState) (url : String), storeInv st →
      storeInv (add_mirror_from_url st url).2) := by
  have hlmne : ∀ o : Option (List RawEntry), loadMirrors o ≠ [] := by
    intro o
    cases o with
    | none => exact (by decide : DEFAULT_MIRRORS ≠ [])
    | some entries =>
      simp only [loadMirrors]
      split_ifs with he hf
      · exact (by decide : DEFAULT_MIRRORS ≠ [])
      · exact (by decide : DEFAULT_MIRRORS ≠ [])
      · exact hf
  constructor
  · intro raw
    cases raw with
    | none => exact ⟨by decide, by decide⟩
    | some r =>
      refine ⟨hlmne r.mirrors, ?_⟩
      show min r.current_index
        (if loadMirrors r.mirrors = [] then 0
          else ((loadMirrors r.mirrors).length : Int) - 1) ≤
        ((loadMirrors r.mirrors).length : Int) - 1
      rw [if_neg (hlmne r.mirrors)]
      exact min_le_right _ _
  · intro st url hinv
    obtain ⟨hne, hok, hnodup, hci0, hcilen⟩ := hinv
    unfold add_mirror_from_url
    cases hp : parse_search_url url with
    | none => exact ⟨hne, hok, hnodup, hci0, hcilen⟩
    | some config =>
      have hcfg := parse_search_url_baseUrlOk url config hp
      dsimp only
      by_cases hex : st.mirrors.any (fun e => e.base_url = config.base_url)
      · rw [if_pos hex]
        have hmap := updateFirstMirror_map config st.mirrors
        have hlen : (updateFirstMirror config st.mirrors).length = st.mirrors.length := by
          have := congrArg List.length hmap
          simpa using this
        unfold storeInv
        dsimp only
        refine ⟨?_, ?_, ?_, hci0, ?_⟩
        · intro hnil
          apply hne
          apply List.length_eq_zero.mp
          rw [← hlen, hnil]
          rfl
        · intro m hm
          have hmem : m.base_url ∈ (updateFirstMirror config st.mirrors).map
              (fun m => m.base_url) := List.mem_map_of_mem _ hm
          rw [hmap] at hmem
          obtain ⟨m0, hm0, heq⟩ := List.mem_map.mp hmem
          rw [← heq]
          exact hok m0 hm0
        · show ((updateFirstMirror config st.mirrors).map (fun m => m.base_url)).Nodup
          rw [hmap]
          exact hnodup
        · show st.current_index < ((updateFirstMirror config st.mirrors).length : Int)
          rw [hlen]
          exact hcilen
      · rw [if_neg hex]
        simp only [List.any_eq_true, decide_eq_true_eq] at hex
        push_neg at hex
        unfold storeInv
        dsimp only
        refine ⟨by simp, ?_, ?_, hci0, ?_⟩
        · intro m hm
          rcases List.mem_append.mp hm with hmem | hmem
          · exact hok m hmem
          · have : m = config := by simpa using hmem
            rw [this]
            exact hcfg
        · show ((st.mirrors ++ [config]).map (fun m => m.base_url)).Nodup
          rw [List.map_append, List.nodup_append]
          refine ⟨hnodup, by simp, ?_⟩
          intro x hx hy
          have hxc : x = config.base_url := by simpa using hy
          obtain ⟨m0, hm0, hbe⟩ := List.mem_map.mp hx
          exact hex m0 hm0 (by rw [hbe, hxc])
        · show st.current_index < ((st.mirrors ++ [config]).length : Int)
          rw [List.length_append]
          push_cast
          omega

/-- Witness for C5: adding a mirror parsed from a new origin to the default
store preserves the full data invariant. -/
theorem C5_witness :
    storeInv (add_mirror_from_url ⟨DEFAULT_MIRRORS, 0⟩
      "https://example.org/search?type=comic&word=x").2 :=
  C5_load_clamp_and_add_invariant.2 ⟨DEFAULT_MIRRORS, 0⟩
    "https://example.org/search?type=comic&word=x" (by decide)

/-- C7: for every store state satisfying the data invariant, saving and then
freshly loading the written payload reconstructs the same ordered record
list and the same current_index (the load clamp is the identity because the
index was in range). -/
theorem C7_save_load_roundtrip (st : MirrorState) (h : storeInv st) :
    loadConfig (some (saveConfig st)) = st := by
  obtain ⟨ms, ci⟩ := st
  obtain ⟨hne, hok, _, hci0, hcilen⟩ := h
  dsimp only at hne hok hci0 hcilen
  have hfm : ((ms.map fun m =>
      RawEntry.dict ⟨some m.base_url, some m.search_path, some m.search_params⟩).filterMap
        loadEntry) = ms :=
    filterMap_loadEntry_save ms (fun m hm => (hok m hm).2)
  have hents : (ms.map fun m =>
      RawEntry.dict ⟨some m.base_url, some m.search_path, some m.search_params⟩) ≠ [] := by
    intro hnil
    exact hne (List.map_eq_nil_iff.mp hnil)
  have hlm : loadMirrors (some (ms.map fun m =>
      RawEntry.dict ⟨some m.base_url, some m.search_path, some m.search_params⟩)) = ms := by
    unfold loadMirrors
    dsimp only
    rw [if_neg hents, hfm, if_neg hne]
  show (⟨loadMirrors (some (ms.map fun m =>
      RawEntry.dict ⟨some m.base_url, some m.search_path, some m.search_params⟩)),
    min ci (if loadMirrors (some (ms.map fun m =>
        RawEntry.dict ⟨some m.base_url, some m.search_path, some m.search_params⟩)) = []
      then 0
      else ((loadMirrors (some (ms.map fun m =>
        RawEntry.dict ⟨some m.base_url, some m.search_path,
          some m.search_params⟩))).length : Int) - 1)⟩ : MirrorState) = ⟨ms, ci⟩
  rw [hlm, if_neg hne, min_eq_left (by omega)]

/-- Witness for C7: the default store with current index 2 satisfies the
invariant and round-trips exactly. -/
theorem C7_witness :
    loadConfig (some (saveConfig ⟨DEFAULT_MIRRORS, 2⟩)) = ⟨DEFAULT_MIRRORS, 2⟩ :=
  C7_save_load_roundtrip ⟨DEFAULT_MIRRORS, 2⟩ (by decide)
